import Mathlib

/-!
Shallow embedding of the face-embedding store of `Facial_Recognition_Web`
(`src/services/FaceRecognitionService.ts` and `src/services/FaceDatabase.ts`),
together with proofs about the claims of the specification.

Modelling conventions:
* `Float32Array` descriptors become idealized real vectors (`List ℝ`).
* JavaScript `Map` (which preserves insertion order and holds unique keys)
  becomes an association list; `mapSet`/`mapDelete` mirror `Map.set`/
  `Map.delete` (they update or remove the first occurrence of the key, which
  coincides with `Map` behaviour since a `Map` never holds duplicate keys).
* `Date` timestamps become `Nat` values passed explicitly ("now") to each
  top-level operation.
* Fallible code (`throw`, extraction failure) is modelled with
  `Except`/`Option` values.
-/

namespace FacialRecognitionWeb

/-- A face descriptor (`Float32Array` in the source): a vector of reals. -/
abbrev Embedding := List ℝ

/-- `KnownFace` from `src/types`: an identity with its stored descriptors. -/
structure KnownFace where
  id : String
  name : String
  descriptors : List Embedding
  addedAt : Nat
  lastSeen : Option Nat

/-- The content of a JS `Map<string, KnownFace>`, in insertion order. -/
abbrev FaceMap := List (String × KnownFace)

/-- `Map.set`: replace the (first, hence only) binding of `k` in place,
or append a new binding at the end. -/
def mapSet (m : FaceMap) (k : String) (v : KnownFace) : FaceMap :=
  match m with
  | [] => [(k, v)]
  | (k', v') :: rest => if k' = k then (k, v) :: rest else (k', v') :: mapSet rest k v

/-- `Map.get`: the binding of `k`, if present. -/
def mapGet (m : FaceMap) (k : String) : Option KnownFace :=
  match m with
  | [] => none
  | (k', v') :: rest => if k' = k then some v' else mapGet rest k

/-- `Map.delete`: remove the (first, hence only) binding of `k`. -/
def mapDelete (m : FaceMap) (k : String) : FaceMap :=
  match m with
  | [] => []
  | (k', v') :: rest => if k' = k then rest else (k', v') :: mapDelete rest k

/-- The `FaceDatabase` record from `src/types`:
`{ faces: Map<string, KnownFace>, totalDescriptors, lastUpdated }`. -/
structure DatabaseState where
  faces : FaceMap
  totalDescriptors : Int
  lastUpdated : Nat

/-- Characters matched by the `\s` class in the source's
`replace(/\s+/g, '_')` (ASCII whitespace; the JS class additionally contains
some Unicode space characters, all of which the final filter strips anyway). -/
def isJsWhitespace (c : Char) : Bool :=
  c == ' ' || c == '\t' || c == '\n' || c == '\r' || c == '\x0b' || c == '\x0c'

/-- `replace(/\s+/g, '_')`: each maximal run of whitespace becomes a single
underscore.  The `Bool` argument records whether we are inside a run. -/
def replaceWsRuns : Bool → List Char → List Char
  | _, [] => []
  | inRun, c :: rest =>
    if isJsWhitespace c then
      if inRun then replaceWsRuns true rest else '_' :: replaceWsRuns true rest
    else c :: replaceWsRuns false rest

/-- `String.prototype.toLowerCase` on the ASCII range (`'A'..'Z'` mapped down
by 32); non-ASCII letters are left alone, which is immaterial because every
non-`[a-z0-9_]` character is stripped by the subsequent filter. -/
def jsToLower (c : Char) : Char :=
  if 'A' ≤ c ∧ c ≤ 'Z' then Char.ofNat (c.toNat + 32) else c

/-- The character class `[a-z0-9_]` kept by `replace(/[^a-z0-9_]/g, '')`. -/
def isIdChar (c : Char) : Bool :=
  ('a' ≤ c && c ≤ 'z') || ('0' ≤ c && c ≤ '9') || c == '_'

namespace FaceRecognitionService

/-- `FaceRecognitionService.generateFaceId`: lowercase, whitespace runs to
`_`, strip everything outside `[a-z0-9_]`. -/
def generateFaceId (name : String) : String :=
  String.mk ((replaceWsRuns false (name.data.map jsToLower)).filter isIdChar)

/-- Default `MIN_CONFIDENCE` of the service. -/
def MIN_CONFIDENCE : ℝ := 0.5

/-- Default `MAX_DISTANCE` of the service. -/
def MAX_DISTANCE : ℝ := 0.6

/-- `FaceRecognitionService.addKnownFace`.  The external descriptor
extraction is modelled by the `descriptor : Option Embedding` argument
(`none` = `extractFaceDescriptor` returned `null`, the add reports `false`).
Returns the source's boolean outcome together with the updated store. -/
def addKnownFace (db : DatabaseState) (name : String)
    (descriptor : Option Embedding) (now : Nat) : Bool × DatabaseState :=
  match descriptor with
  | none => (false, db)
  | some d =>
    let faceId := generateFaceId name
    match mapGet db.faces faceId with
    | some existingFace =>
      let updated : KnownFace :=
        { existingFace with descriptors := existingFace.descriptors ++ [d], lastSeen := some now }
      (true, { faces := mapSet db.faces faceId updated,
               totalDescriptors := db.totalDescriptors + 1,
               lastUpdated := now })
    | none =>
      let knownFace : KnownFace :=
        { id := faceId, name := name, descriptors := [d], addedAt := now, lastSeen := some now }
      (true, { faces := mapSet db.faces faceId knownFace,
               totalDescriptors := db.totalDescriptors + 1,
               lastUpdated := now })

/-- `FaceRecognitionService.removeKnownFace`. -/
def removeKnownFace (db : DatabaseState) (name : String) (now : Nat) :
    Bool × DatabaseState :=
  let faceId := generateFaceId name
  match mapGet db.faces faceId with
  | some face =>
    (true, { faces := mapDelete db.faces faceId,
             totalDescriptors := db.totalDescriptors - (face.descriptors.length : Int),
             lastUpdated := now })
  | none => (false, db)

/-- `FaceRecognitionService.getKnownFaces` (`Map.values` in insertion order). -/
def getKnownFaces (db : DatabaseState) : List KnownFace :=
  db.faces.map (·.2)

/-- Result record of `getDatabaseStats`. -/
structure DatabaseStats where
  totalFaces : Nat
  totalDescriptors : Int
  lastUpdated : Nat
  deriving DecidableEq

/-- `FaceRecognitionService.getDatabaseStats`. -/
def getDatabaseStats (db : DatabaseState) : DatabaseStats :=
  { totalFaces := db.faces.length,
    totalDescriptors := db.totalDescriptors,
    lastUpdated := db.lastUpdated }

/-- `FaceRecognitionService.clearDatabase`. -/
def clearDatabase (_db : DatabaseState) (now : Nat) : DatabaseState :=
  { faces := [], totalDescriptors := 0, lastUpdated := now }

end FaceRecognitionService

/-- Total number of stored descriptors, summed over all identities. -/
def descriptorCount (m : FaceMap) : Int :=
  (m.map (fun p => (p.2.descriptors.length : Int))).sum

/-- The store counter invariant: `totalDescriptors` equals the sum of the
per-identity descriptor list lengths. -/
def CounterInvariant (db : DatabaseState) : Prop :=
  db.totalDescriptors = descriptorCount db.faces

section MapLemmas

theorem mapGet_mapSet_self (m : FaceMap) (k : String) (v : KnownFace) :
    mapGet (mapSet m k v) k = some v := by
  induction m with
  | nil => simp [mapSet, mapGet]
  | cons p rest ih =>
    obtain ⟨k', v'⟩ := p
    by_cases h : k' = k
    · simp [mapSet, h, mapGet]
    · simp [mapSet, h, mapGet, ih]

theorem mapGet_mapSet_ne (m : FaceMap) (k k' : String) (v : KnownFace)
    (h : k' ≠ k) : mapGet (mapSet m k v) k' = mapGet m k' := by
  induction m with
  | nil => simp [mapSet, mapGet, Ne.symm h]
  | cons p rest ih =>
    obtain ⟨k₀, v₀⟩ := p
    by_cases h₀ : k₀ = k
    · subst h₀
      simp [mapSet, mapGet, Ne.symm h]
    · by_cases h₁ : k₀ = k'
      · simp [mapSet, h₀, mapGet, h₁, h]
      · simp [mapSet, h₀, mapGet, h₁, h, ih]

theorem descriptorCount_mapSet_of_mapGet_some (m : FaceMap) (k : String)
    (v old : KnownFace) (h : mapGet m k = some old) :
    descriptorCount (mapSet m k v) =
      descriptorCount m - (old.descriptors.length : Int) + (v.descriptors.length : Int) := by
  induction m with
  | nil => simp [mapGet] at h
  | cons p rest ih =>
    obtain ⟨k₀, v₀⟩ := p
    by_cases h₀ : k₀ = k
    · rw [mapGet, if_pos h₀] at h
      injection h with h
      subst h
      simp only [mapSet, if_pos h₀, descriptorCount, List.map_cons, List.sum_cons]
      ring
    · rw [mapGet, if_neg h₀] at h
      have := ih h
      simp only [mapSet, if_neg h₀, descriptorCount, List.map_cons, List.sum_cons] at this ⊢
      omega

theorem descriptorCount_mapSet_of_mapGet_none (m : FaceMap) (k : String)
    (v : KnownFace) (h : mapGet m k = none) :
    descriptorCount (mapSet m k v) = descriptorCount m + (v.descriptors.length : Int) := by
  induction m with
  | nil => simp [mapSet, descriptorCount]
  | cons p rest ih =>
    obtain ⟨k₀, v₀⟩ := p
    by_cases h₀ : k₀ = k
    · rw [mapGet, if_pos h₀] at h
      exact absurd h (by simp)
    · rw [mapGet, if_neg h₀] at h
      have := ih h
      simp only [mapSet, if_neg h₀, descriptorCount, List.map_cons, List.sum_cons] at this ⊢
      omega

theorem descriptorCount_mapDelete_of_mapGet_some (m : FaceMap) (k : String)
    (old : KnownFace) (h : mapGet m k = some old) :
    descriptorCount (mapDelete m k) =
      descriptorCount m - (old.descriptors.length : Int) := by
  induction m with
  | nil => simp [mapGet] at h
  | cons p rest ih =>
    obtain ⟨k₀, v₀⟩ := p
    by_cases h₀ : k₀ = k
    · rw [mapGet, if_pos h₀] at h
      injection h with h
      subst h
      simp only [mapDelete, if_pos h₀, descriptorCount, List.map_cons, List.sum_cons]
      ring
    · rw [mapGet, if_neg h₀] at h
      have := ih h
      simp only [mapDelete, if_neg h₀, descriptorCount, List.map_cons, List.sum_cons] at this ⊢
      omega

end MapLemmas

namespace FaceDatabase

/-- `FaceDatabase.generateFaceId` (verbatim duplicate of the recognition
service's normalizer). -/
def generateFaceId (name : String) : String :=
  String.mk ((replaceWsRuns false (name.data.map jsToLower)).filter isIdChar)

/-- `MAX_DESCRIPTORS_PER_FACE`. -/
def MAX_DESCRIPTORS_PER_FACE : Nat := 10

/-- `MIN_TRAINING_SAMPLES`. -/
def MIN_TRAINING_SAMPLES : Nat := 3

/-- One face entry of the persisted/exported JSON document. -/
structure PersistedFace where
  id : String
  name : String
  descriptors : List Embedding
  addedAt : Nat
  lastSeen : Option Nat

/-- The parsed top-level shape of an import document.  `faces = none` models
a parsed document whose `faces` field is absent or not an array (the
`!importData.faces || !Array.isArray(importData.faces)` test); the JSON
string layer itself is abstracted away. -/
structure PersistedDoc where
  faces : Option (List PersistedFace)
  totalDescriptors : Int
  lastUpdated : Nat
  exportedAt : Nat

/-- The full state of a `FaceDatabase` instance: the authoritative
recognition-service store, the wrapper's own mirror (`this.database`), and
the `localStorage` slot (holding the last saved document, if any). -/
structure State where
  service : DatabaseState
  db : DatabaseState
  storage : Option PersistedDoc

/-- Outcome record of `trainFace`. -/
structure TrainResult where
  success : Bool
  samplesAdded : Nat
  totalSamples : Nat
  message : String

/-- Outcome record of `importDatabase`. -/
structure ImportResult where
  success : Bool
  facesImported : Nat
  descriptorsImported : Nat
  message : String

/-- `FaceDatabase.syncFromRecognitionService`: clear the mirror map and
re-insert every face of the authoritative store under its `id`, then copy
the counters.  A full pull-and-replace snapshot. -/
def syncFromRecognitionService (st : State) : State :=
  let knownFaces := FaceRecognitionService.getKnownFaces st.service
  let stats := FaceRecognitionService.getDatabaseStats st.service
  { st with db := { faces := knownFaces.foldl (fun m f => mapSet m f.id f) [],
                    totalDescriptors := stats.totalDescriptors,
                    lastUpdated := stats.lastUpdated } }

/-- `FaceDatabase.syncToRecognitionService`: the write-through direction is
unimplemented in the source — it clears the authoritative store and merely
logs a warning, restoring nothing. -/
def syncToRecognitionService (st : State) (now : Nat) : State :=
  { st with service := FaceRecognitionService.clearDatabase st.service now }

/-- `FaceDatabase.exportDatabase`: resync from the authoritative store, then
serialize the mirror into a document (returned together with the state as
mutated by the resync). -/
def exportDatabase (st : State) (now : Nat) : PersistedDoc × State :=
  let st1 := syncFromRecognitionService st
  ({ faces := some (st1.db.faces.map (fun p =>
        { id := p.1, name := p.2.name, descriptors := p.2.descriptors,
          addedAt := p.2.addedAt, lastSeen := p.2.lastSeen })),
     totalDescriptors := st1.db.totalDescriptors,
     lastUpdated := st1.db.lastUpdated,
     exportedAt := now }, st1)

/-- `FaceDatabase.saveToStorage`: serialize (which resyncs!) and store. -/
def saveToStorage (st : State) (now : Nat) : State :=
  let r := exportDatabase st now
  { r.2 with storage := some r.1 }

/-- `FaceDatabase.clearDatabase`: clears the authoritative store, the
mirror, and saves. -/
def clearDatabase (st : State) (now : Nat) : State :=
  let st1 := { st with
    service := FaceRecognitionService.clearDatabase st.service now,
    db := { faces := [], totalDescriptors := 0, lastUpdated := now } }
  saveToStorage st1 now

/-- `FaceDatabase.importDatabase` on an already parsed document.  The
structural check fails (no mutation) when the `faces` field is missing;
otherwise the store is cleared, the entries are inserted into the mirror,
the counters are set, and the (no-op, clearing) write-through plus the save
run.  Per-entry failures cannot occur for a well-typed parsed document, so
the per-entry `try`/`catch` has no `catch` branch here. -/
def importDatabase (st : State) (doc : PersistedDoc) (now : Nat) :
    ImportResult × State :=
  match doc.faces with
  | none =>
    ({ success := false, facesImported := 0, descriptorsImported := 0,
       message := "Invalid database format" }, st)
  | some faceList =>
    let st1 := clearDatabase st now
    let imported : List KnownFace := faceList.map (fun fd =>
      { id := fd.id, name := fd.name, descriptors := fd.descriptors,
        addedAt := fd.addedAt, lastSeen := fd.lastSeen })
    let facesImported := imported.length
    let descriptorsImported := (imported.map (·.descriptors.length)).sum
    let st2 := { st1 with db :=
      { faces := imported.foldl (fun m f => mapSet m f.id f) st1.db.faces,
        totalDescriptors := (descriptorsImported : Int),
        lastUpdated := now } }
    let st3 := saveToStorage (syncToRecognitionService st2 now) now
    ({ success := true, facesImported := facesImported,
       descriptorsImported := descriptorsImported,
       message := "Successfully imported " ++ toString facesImported ++
         " faces with " ++ toString descriptorsImported ++ " descriptors" }, st3)

/-- `FaceDatabase.addTrainingSample`. -/
def addTrainingSample (st : State) (name : String)
    (descriptor : Option Embedding) (now : Nat) : Bool × State :=
  let r := FaceRecognitionService.addKnownFace st.service name descriptor now
  let st1 := { st with service := r.2 }
  if r.1 then (true, saveToStorage (syncFromRecognitionService st1) now)
  else (false, st1)

/-- `FaceDatabase.removeFace`. -/
def removeFace (st : State) (name : String) (now : Nat) : Bool × State :=
  let r := FaceRecognitionService.removeKnownFace st.service name now
  let st1 := { st with service := r.2 }
  if r.1 then
    let faceId := generateFaceId name
    let st2 := { st1 with db := { st1.db with
      faces := mapDelete st1.db.faces faceId, lastUpdated := now } }
    (true, saveToStorage st2 now)
  else (false, st1)

/-- The per-sample loop of `FaceDatabase.trainFace`: add the sample through
the recognition service, count successes, resync the mirror, and stop as
soon as the identity's mirrored descriptor count has reached
`MAX_DESCRIPTORS_PER_FACE`.  (The progress callback is pure UI and is not
modelled.) -/
def trainLoop (name faceId : String) (now : Nat) :
    List (Option Embedding) → State → Nat → Nat × State
  | [], st, samplesAdded => (samplesAdded, st)
  | s :: rest, st, samplesAdded =>
    let r := FaceRecognitionService.addKnownFace st.service name s now
    let samplesAdded1 := if r.1 then samplesAdded + 1 else samplesAdded
    let st2 := syncFromRecognitionService { st with service := r.2 }
    match mapGet st2.db.faces faceId with
    | some existingFace =>
      if MAX_DESCRIPTORS_PER_FACE ≤ existingFace.descriptors.length then
        (samplesAdded1, st2)
      else trainLoop name faceId now rest st2 samplesAdded1
    | none => trainLoop name faceId now rest st2 samplesAdded1

/-- `FaceDatabase.trainFace`: train an identity from a list of samples (each
sample is the outcome of the external descriptor extraction, `none` when the
underlying `addKnownFace` reports failure). -/
def trainFace (st : State) (name : String) (samples : List (Option Embedding))
    (now : Nat) : TrainResult × State :=
  if samples.length = 0 then
    ({ success := false, samplesAdded := 0, totalSamples := 0,
       message := "No face detections provided for training" }, st)
  else
    let faceId := generateFaceId name
    let r := trainLoop name faceId now samples st 0
    let st2 := syncFromRecognitionService r.2
    let st3 := saveToStorage st2 now
    let totalSamples := ((mapGet st3.db.faces faceId).map
      (fun f => f.descriptors.length)).getD 0
    let isWellTrained := MIN_TRAINING_SAMPLES ≤ totalSamples
    ({ success := 0 < r.1, samplesAdded := r.1, totalSamples := totalSamples,
       message := if isWellTrained then
           "Successfully trained " ++ name ++ " with " ++
             toString totalSamples ++ " samples"
         else
           "Added " ++ toString r.1 ++ " samples for " ++ name ++ ". Need " ++
             toString (MIN_TRAINING_SAMPLES - totalSamples) ++
             " more for optimal recognition" }, st3)

/-- `FaceDatabase.getStorageSize`: byte size of the persisted blob, 0 when
nothing is stored.  The exact byte count of the JSON text is abstracted to a
simple size measure of the stored document (entry and component counts). -/
def getStorageSize (st : State) : Nat :=
  match st.storage with
  | none => 0
  | some doc =>
    match doc.faces with
    | none => 0
    | some l => l.length + (l.map (fun f => f.descriptors.length)).sum

/-- Result record of `getStatistics`. -/
structure Statistics where
  totalFaces : Nat
  totalDescriptors : Int
  wellTrainedFaces : Nat
  averageDescriptorsPerFace : ℝ
  lastUpdated : Nat
  storageSize : Nat

/-- `Math.round`: round half up. -/
noncomputable def jsRound (x : ℝ) : ℤ := ⌊x + 1 / 2⌋

/-- `FaceDatabase.getStatistics`: resync from the authoritative store, then
report the mirror's counters and derived training statistics. -/
noncomputable def getStatistics (st : State) : Statistics × State :=
  let st1 := syncFromRecognitionService st
  let faces := st1.db.faces.map (·.2)
  let wellTrainedFaces := (faces.filter
    (fun f => MIN_TRAINING_SAMPLES ≤ f.descriptors.length)).length
  let averageDescriptors : ℝ :=
    if 0 < faces.length then
      ((faces.map (fun f => (f.descriptors.length : ℝ))).sum) / (faces.length : ℝ)
    else 0
  ({ totalFaces := st1.db.faces.length,
     totalDescriptors := st1.db.totalDescriptors,
     wellTrainedFaces := wellTrainedFaces,
     averageDescriptorsPerFace := (jsRound (averageDescriptors * 100) : ℝ) / 100,
     lastUpdated := st1.db.lastUpdated,
     storageSize := getStorageSize st }, st1)

/-- `FaceDatabase.getKnownFaces`: resync, then list the mirror's faces with
their training status. -/
def getKnownFaces (st : State) :
    List (KnownFace × Bool) × State :=
  let st1 := syncFromRecognitionService st
  (st1.db.faces.map (fun p =>
    (p.2, decide (MIN_TRAINING_SAMPLES ≤ p.2.descriptors.length))), st1)

end FaceDatabase


namespace FaceRecognitionService

/-- `FaceRecognitionService.calculateEuclideanDistance`: throws on length
mismatch, otherwise the square root of the sum of squared component
differences.  (With equal lengths the `undefined` guards inside the source's
loop never fire, so `zip` visits exactly the same component pairs.) -/
noncomputable def calculateEuclideanDistance (desc1 desc2 : Embedding) :
    Except String ℝ :=
  if desc1.length ≠ desc2.length then
    .error "Descriptors must have the same length"
  else
    .ok (Real.sqrt (((desc1.zip desc2).map
      (fun p => (p.1 - p.2) * (p.1 - p.2))).sum))

/-- `FaceRecognitionService.distanceToConfidence`:
`clamp(exp(-distance * 2), 0, 1)`. -/
noncomputable def distanceToConfidence (distance : ℝ) : ℝ :=
  max 0 (min 1 (Real.exp (-distance * 2)))

/-- `FaceMatch` from `src/types`. -/
structure FaceMatch where
  personName : String
  confidence : ℝ
  distance : ℝ
  descriptorId : String

/-- One stored embedding together with its identity and index, as visited by
the nested loops of `findBestMatch` (outer: map insertion order; inner:
descriptor insertion order). -/
structure Candidate where
  faceId : String
  personName : String
  index : Nat
  descriptor : Embedding

/-- All stored embeddings of a store, in the exact visit order of
`findBestMatch`'s nested loops. -/
def candidates (m : FaceMap) : List Candidate :=
  m.flatMap (fun p => p.2.descriptors.enum.map (fun q =>
    { faceId := p.1, personName := p.2.name, index := q.1, descriptor := q.2 }))

/-- The distance value produced for a matching-length pair. -/
noncomputable def distv (q e : Embedding) : ℝ :=
  Real.sqrt (((q.zip e).map (fun p => (p.1 - p.2) * (p.1 - p.2))).sum)

/-- The `FaceMatch` record `findBestMatch` builds when candidate `c` becomes
the running best. -/
noncomputable def mkMatch (q : Embedding) (c : Candidate) : FaceMatch :=
  { personName := c.personName,
    confidence := distanceToConfidence (distv q c.descriptor),
    distance := distv q c.descriptor,
    descriptorId := c.faceId ++ "_" ++ toString c.index }

/-- The replacement test of `findBestMatch`'s loop:
`distance < bestDistance && distance <= this.MAX_DISTANCE`, where
`bestDistance` is `Infinity` until the first replacement (so any finite
distance passes the first comparison) and afterwards always equals the
running best's `distance` field. -/
def replacesBest (maxDistance distance : ℝ) (best : Option FaceMatch) : Prop :=
  (match best with
   | none => True
   | some b => distance < b.distance) ∧ distance ≤ maxDistance

theorem replacesBest_none_iff (maxDistance d : ℝ) :
    replacesBest maxDistance d none ↔ d ≤ maxDistance := by
  unfold replacesBest
  simp

theorem replacesBest_some_iff (maxDistance d : ℝ) (b : FaceMatch) :
    replacesBest maxDistance d (some b) ↔ d < b.distance ∧ d ≤ maxDistance := by
  unfold replacesBest
  simp

theorem replacesBest_le {maxDistance d : ℝ} {best : Option FaceMatch}
    (h : replacesBest maxDistance d best) : d ≤ maxDistance := by
  unfold replacesBest at h
  exact h.2

open Classical in
/-- The body of `findBestMatch`'s loop over the stored embeddings: a
candidate replaces the running best exactly when its distance passes
`replacesBest`.  A distance-computation error aborts the whole scan, as the
source's exception would. -/
noncomputable def scanCandidates (maxDistance : ℝ) (descriptor : Embedding) :
    List Candidate → Option FaceMatch → Except String (Option FaceMatch)
  | [], best => .ok best
  | c :: rest, best =>
    match calculateEuclideanDistance descriptor c.descriptor with
    | .error e => .error e
    | .ok distance =>
      if replacesBest maxDistance distance best then
        scanCandidates maxDistance descriptor rest (some
          { personName := c.personName,
            confidence := distanceToConfidence distance,
            distance := distance,
            descriptorId := c.faceId ++ "_" ++ toString c.index })
      else
        scanCandidates maxDistance descriptor rest best

/-- `FaceRecognitionService.findBestMatch` (with the service's mutable
`MAX_DISTANCE` passed explicitly). -/
noncomputable def findBestMatch (maxDistance : ℝ) (db : DatabaseState)
    (descriptor : Embedding) : Except String (Option FaceMatch) :=
  scanCandidates maxDistance descriptor (candidates db.faces) none

/-- The match/no-match decision of `recognizeFace` applied to
`findBestMatch`'s result:
`match && match.confidence >= MIN_CONFIDENCE && match.distance <= MAX_DISTANCE`. -/
def isMatchDecision (minConfidence maxDistance : ℝ)
    (result : Option FaceMatch) : Prop :=
  match result with
  | none => False
  | some m => minConfidence ≤ m.confidence ∧ m.distance ≤ maxDistance

end FaceRecognitionService

/-! ### Witness fixtures -/

/-- The store a freshly constructed service holds (empty map, zero counter). -/
def emptyDb : DatabaseState := { faces := [], totalDescriptors := 0, lastUpdated := 0 }

/-- A freshly constructed `FaceDatabase` system state over an empty store. -/
def emptyState : FaceDatabase.State :=
  { service := emptyDb, db := emptyDb, storage := none }

/-! ### Character-normalization lemmas (for the id-normalizer claims) -/

theorem jsToLower_fix {c : Char} (h : isIdChar c = true) : jsToLower c = c := by
  simp only [isIdChar, Bool.or_eq_true, Bool.and_eq_true, decide_eq_true_eq,
    beq_iff_eq] at h
  unfold jsToLower
  rw [if_neg]
  rcases h with (⟨h1, h2⟩ | ⟨h1, h2⟩) | h1
  · rintro ⟨hA, hZ⟩
    exact absurd (le_trans h1 hZ) (by decide)
  · rintro ⟨hA, hZ⟩
    exact absurd (le_trans hA h2) (by decide)
  · subst h1
    rintro ⟨hA, hZ⟩
    exact absurd hZ (by decide)

theorem isJsWhitespace_of_isIdChar {c : Char} (h : isIdChar c = true) :
    isJsWhitespace c = false := by
  cases hws : isJsWhitespace c
  · rfl
  · exfalso
    have hd : c = ' ' ∨ c = '\t' ∨ c = '\n' ∨ c = '\r' ∨ c = '\x0b' ∨ c = '\x0c' := by
      simpa [isJsWhitespace, or_assoc] using hws
    rcases hd with h' | h' | h' | h' | h' | h' <;> subst h' <;>
      exact absurd h (by decide)

theorem replaceWsRuns_no_ws (l : List Char)
    (hl : ∀ c ∈ l, isJsWhitespace c = false) : ∀ b, replaceWsRuns b l = l := by
  induction l with
  | nil => intro b; rfl
  | cons c rest ih =>
    intro b
    have hc := hl c (List.mem_cons_self c rest)
    simp only [replaceWsRuns, hc, Bool.false_eq_true, if_false]
    rw [ih (fun x hx => hl x (List.mem_cons_of_mem _ hx)) false]

/-! ### Claim theorems -/

/-- C3: in the authoritative store, `totalDescriptors` always equals the sum
of the per-identity descriptor-list lengths, and this invariant is preserved
by every store operation: `addKnownFace` increments the counter by exactly
one per successful append, `removeKnownFace` decrements it by the removed
identity's descriptor count, and `clearDatabase` zeroes both. -/
theorem counterInvariant_preserved (db : DatabaseState)
    (hinv : CounterInvariant db) :
    (∀ name d now,
      CounterInvariant (FaceRecognitionService.addKnownFace db name d now).2 ∧
      ((FaceRecognitionService.addKnownFace db name d now).1 = true →
        (FaceRecognitionService.addKnownFace db name d now).2.totalDescriptors =
          db.totalDescriptors + 1)) ∧
    (∀ name now,
      CounterInvariant (FaceRecognitionService.removeKnownFace db name now).2 ∧
      (∀ face,
        mapGet db.faces (FaceRecognitionService.generateFaceId name) = some face →
        (FaceRecognitionService.removeKnownFace db name now).2.totalDescriptors =
          db.totalDescriptors - (face.descriptors.length : Int))) ∧
    (∀ now,
      CounterInvariant (FaceRecognitionService.clearDatabase db now) ∧
      (FaceRecognitionService.clearDatabase db now).totalDescriptors = 0) := by
  refine ⟨?_, ?_, ?_⟩
  · intro name d now
    cases d with
    | none =>
      exact ⟨hinv, fun h => by simp [FaceRecognitionService.addKnownFace] at h⟩
    | some emb =>
      rcases hget : mapGet db.faces (FaceRecognitionService.generateFaceId name)
        with _ | f
      · constructor
        · simp only [FaceRecognitionService.addKnownFace, hget, CounterInvariant]
          rw [descriptorCount_mapSet_of_mapGet_none _ _ _ hget, ← hinv]
          simp
        · intro _
          simp [FaceRecognitionService.addKnownFace, hget]
      · constructor
        · simp only [FaceRecognitionService.addKnownFace, hget, CounterInvariant]
          rw [descriptorCount_mapSet_of_mapGet_some _ _ _ _ hget, ← hinv]
          simp only [List.length_append, List.length_cons, List.length_nil]
          push_cast
          ring
        · intro _
          simp [FaceRecognitionService.addKnownFace, hget]
  · intro name now
    rcases hget : mapGet db.faces (FaceRecognitionService.generateFaceId name)
      with _ | f
    · constructor
      · simpa [FaceRecognitionService.removeKnownFace, hget] using hinv
      · intro face hface
        cases hface
    · constructor
      · simp only [FaceRecognitionService.removeKnownFace, hget, CounterInvariant]
        rw [descriptorCount_mapDelete_of_mapGet_some _ _ _ hget, ← hinv]
      · intro face hface
        injection hface with hface
        subst hface
        simp [FaceRecognitionService.removeKnownFace, hget]
  · intro now
    exact ⟨by simp [FaceRecognitionService.clearDatabase, CounterInvariant,
      descriptorCount], rfl⟩

/-- Witness for `counterInvariant_preserved` at the empty store. -/
theorem counterInvariant_preserved_witness :
    CounterInvariant emptyDb ∧
    ((∀ name d now,
      CounterInvariant (FaceRecognitionService.addKnownFace emptyDb name d now).2 ∧
      ((FaceRecognitionService.addKnownFace emptyDb name d now).1 = true →
        (FaceRecognitionService.addKnownFace emptyDb name d now).2.totalDescriptors =
          emptyDb.totalDescriptors + 1)) ∧
    (∀ name now,
      CounterInvariant (FaceRecognitionService.removeKnownFace emptyDb name now).2 ∧
      (∀ face,
        mapGet emptyDb.faces (FaceRecognitionService.generateFaceId name) = some face →
        (FaceRecognitionService.removeKnownFace emptyDb name now).2.totalDescriptors =
          emptyDb.totalDescriptors - (face.descriptors.length : Int))) ∧
    (∀ now,
      CounterInvariant (FaceRecognitionService.clearDatabase emptyDb now) ∧
      (FaceRecognitionService.clearDatabase emptyDb now).totalDescriptors = 0)) :=
  ⟨rfl, counterInvariant_preserved emptyDb rfl⟩

/-- C8: removing a display name whose derived id is absent from the store
returns `false` and leaves the store — hence `getDatabaseStats` — entirely
unchanged. -/
theorem removeKnownFace_absent (db : DatabaseState) (name : String) (now : Nat)
    (h : mapGet db.faces (FaceRecognitionService.generateFaceId name) = none) :
    FaceRecognitionService.removeKnownFace db name now = (false, db) ∧
    FaceRecognitionService.getDatabaseStats
        (FaceRecognitionService.removeKnownFace db name now).2 =
      FaceRecognitionService.getDatabaseStats db := by
  have heq : FaceRecognitionService.removeKnownFace db name now = (false, db) := by
    simp [FaceRecognitionService.removeKnownFace, h]
  exact ⟨heq, by rw [heq]⟩

/-- Witness for `removeKnownFace_absent` on the empty store. -/
theorem removeKnownFace_absent_witness :
    mapGet emptyDb.faces (FaceRecognitionService.generateFaceId "Jane Doe") = none ∧
    FaceRecognitionService.removeKnownFace emptyDb "Jane Doe" 5 = (false, emptyDb) :=
  ⟨rfl, (removeKnownFace_absent emptyDb "Jane Doe" 5 rfl).1⟩

/-- C6: importing a parsed document whose top-level shape lacks the `faces`
array returns `success = false` with message `"Invalid database format"` and
performs no store mutation at all (the state is returned untouched — no
clearing, no new identities). -/
theorem importDatabase_invalid_format (st : FaceDatabase.State)
    (doc : FaceDatabase.PersistedDoc) (now : Nat) (h : doc.faces = none) :
    FaceDatabase.importDatabase st doc now =
      ({ success := false, facesImported := 0, descriptorsImported := 0,
         message := "Invalid database format" }, st) := by
  simp [FaceDatabase.importDatabase, h]

/-- Witness for `importDatabase_invalid_format` on a concrete document. -/
theorem importDatabase_invalid_format_witness :
    (({ faces := none, totalDescriptors := 3, lastUpdated := 0, exportedAt := 0 } :
        FaceDatabase.PersistedDoc).faces = none) ∧
    FaceDatabase.importDatabase emptyState
        { faces := none, totalDescriptors := 3, lastUpdated := 0, exportedAt := 0 } 7 =
      ({ success := false, facesImported := 0, descriptorsImported := 0,
         message := "Invalid database format" }, emptyState) :=
  ⟨rfl, importDatabase_invalid_format emptyState _ 7 rfl⟩

/-- C10: the id normalizer (lowercase, whitespace runs to `_`, strip all
characters outside `[a-z0-9_]`) is the identical function in
`FaceRecognitionService` and `FaceDatabase`, and it is idempotent: stored
ids are fixed points of normalization. -/
theorem generateFaceId_shared_idempotent :
    (∀ s, FaceDatabase.generateFaceId s = FaceRecognitionService.generateFaceId s) ∧
    (∀ s, FaceRecognitionService.generateFaceId
        (FaceRecognitionService.generateFaceId s) =
      FaceRecognitionService.generateFaceId s) := by
  constructor
  · intro s
    rfl
  · intro s
    show String.mk ((replaceWsRuns false
        (((replaceWsRuns false (s.data.map jsToLower)).filter isIdChar).map
          jsToLower)).filter isIdChar) = _
    have hall : ∀ c ∈ (replaceWsRuns false (s.data.map jsToLower)).filter isIdChar,
        isIdChar c = true := fun c hc => (List.mem_filter.mp hc).2
    rw [List.map_congr_left (fun c hc => jsToLower_fix (hall c hc)), List.map_id',
      replaceWsRuns_no_ws _ (fun c hc => isJsWhitespace_of_isIdChar (hall c hc)) false,
      List.filter_eq_self.mpr hall]
    rfl

theorem zipSqSum_eq_rangeSum (d1 d2 : Embedding) (h : d1.length = d2.length) :
    ((d1.zip d2).map (fun p => (p.1 - p.2) * (p.1 - p.2))).sum =
      ∑ i ∈ Finset.range d1.length, (d1.getD i 0 - d2.getD i 0) ^ 2 := by
  induction d1 generalizing d2 with
  | nil => simp
  | cons x xs ih =>
    cases d2 with
    | nil => simp at h
    | cons y ys =>
      simp only [List.length_cons] at h
      have h' : xs.length = ys.length := Nat.succ_injective h
      simp only [List.zip_cons_cons, List.map_cons, List.sum_cons, List.length_cons]
      rw [Finset.sum_range_succ']
      simp only [List.getD_cons_succ, List.getD_cons_zero]
      rw [ih ys h']
      ring

/-- C5: the confidence transform equals `clamp(exp(-2 d), 0, 1)`, yields
exactly 1 at distance 0, and is strictly decreasing as the (non-negative)
distance increases. -/
theorem distanceToConfidence_spec :
    (∀ d : ℝ, FaceRecognitionService.distanceToConfidence d =
        max 0 (min 1 (Real.exp (-2 * d)))) ∧
    FaceRecognitionService.distanceToConfidence 0 = 1 ∧
    (∀ d₁ d₂ : ℝ, 0 ≤ d₁ → d₁ < d₂ →
      FaceRecognitionService.distanceToConfidence d₂ <
        FaceRecognitionService.distanceToConfidence d₁) := by
  have key : ∀ d : ℝ, 0 ≤ d →
      FaceRecognitionService.distanceToConfidence d = Real.exp (-d * 2) := by
    intro d hd
    unfold FaceRecognitionService.distanceToConfidence
    have h1 : Real.exp (-d * 2) ≤ 1 := by
      rw [← Real.exp_zero]
      exact Real.exp_le_exp.mpr (by nlinarith)
    rw [min_eq_right h1, max_eq_right (Real.exp_pos _).le]
  refine ⟨?_, ?_, ?_⟩
  · intro d
    unfold FaceRecognitionService.distanceToConfidence
    ring_nf
  · rw [key 0 le_rfl]
    norm_num
  · intro d₁ d₂ h1 h2
    rw [key d₁ h1, key d₂ (le_trans h1 h2.le)]
    exact Real.exp_lt_exp.mpr (by nlinarith)

/-- Witness for `distanceToConfidence_spec` at distances 0 and 1. -/
theorem distanceToConfidence_spec_witness :
    (0 : ℝ) ≤ 0 ∧ (0 : ℝ) < 1 ∧
    FaceRecognitionService.distanceToConfidence 1 <
      FaceRecognitionService.distanceToConfidence 0 :=
  ⟨le_rfl, by norm_num, distanceToConfidence_spec.2.2 0 1 le_rfl (by norm_num)⟩

/-- C7: the Euclidean-distance computation fails with the length-mismatch
error whenever the two descriptors have different lengths, and on
equal-length descriptors it is the square root of the sum over **all**
component indices of the squared differences (no component is coerced or
skipped). -/
theorem calculateEuclideanDistance_spec :
    (∀ d1 d2 : Embedding, d1.length ≠ d2.length →
      FaceRecognitionService.calculateEuclideanDistance d1 d2 =
        Except.error "Descriptors must have the same length") ∧
    (∀ d1 d2 : Embedding, d1.length = d2.length →
      FaceRecognitionService.calculateEuclideanDistance d1 d2 =
        Except.ok (Real.sqrt (∑ i ∈ Finset.range d1.length,
          (d1.getD i 0 - d2.getD i 0) ^ 2))) := by
  constructor
  · intro d1 d2 h
    simp [FaceRecognitionService.calculateEuclideanDistance, h]
  · intro d1 d2 h
    unfold FaceRecognitionService.calculateEuclideanDistance
    rw [if_neg (by simp [h]), zipSqSum_eq_rangeSum d1 d2 h]

/-- Witness for `calculateEuclideanDistance_spec` on concrete descriptors of
lengths 0/1 (mismatch) and 1/1 (match). -/
theorem calculateEuclideanDistance_spec_witness :
    (([] : Embedding).length ≠ ([(0 : ℝ)] : Embedding).length) ∧
    FaceRecognitionService.calculateEuclideanDistance [] [(0 : ℝ)] =
      Except.error "Descriptors must have the same length" ∧
    (([(0 : ℝ)] : Embedding).length = ([(1 : ℝ)] : Embedding).length) ∧
    FaceRecognitionService.calculateEuclideanDistance [(0 : ℝ)] [(1 : ℝ)] =
      Except.ok (Real.sqrt (∑ i ∈ Finset.range ([(0 : ℝ)] : Embedding).length,
        (([(0 : ℝ)] : Embedding).getD i 0 - ([(1 : ℝ)] : Embedding).getD i 0) ^ 2)) :=
  ⟨by decide, calculateEuclideanDistance_spec.1 _ _ (by decide),
   rfl, calculateEuclideanDistance_spec.2 _ _ rfl⟩

namespace FaceRecognitionService

/-- Invariant of `scanCandidates`' running best over the already-processed
prefix `done`: either nothing within `maxDistance` has been seen, or the
best is the record of the first processed candidate attaining the minimum
processed distance within `maxDistance`. -/
def ScanInv (maxDistance : ℝ) (q : Embedding) (done : List Candidate)
    (best : Option FaceMatch) : Prop :=
  (best = none ∧ ∀ p ∈ done, ¬ distv q p.descriptor ≤ maxDistance) ∨
  (∃ pre c post, done = pre ++ c :: post ∧ best = some (mkMatch q c) ∧
    distv q c.descriptor ≤ maxDistance ∧
    (∀ p ∈ pre, distv q c.descriptor < distv q p.descriptor) ∧
    (∀ p ∈ post, distv q c.descriptor ≤ distv q p.descriptor))

theorem calculateEuclideanDistance_ok {q e : Embedding}
    (h : e.length = q.length) :
    calculateEuclideanDistance q e = .ok (distv q e) := by
  unfold calculateEuclideanDistance distv
  rw [if_neg (by omega)]

theorem scanCandidates_inv (maxDistance : ℝ) (q : Embedding) :
    ∀ (l done : List Candidate) (best : Option FaceMatch),
      (∀ c ∈ l, c.descriptor.length = q.length) →
      ScanInv maxDistance q done best →
      ∃ r, scanCandidates maxDistance q l best = .ok r ∧
        ScanInv maxDistance q (done ++ l) r := by
  intro l
  induction l with
  | nil =>
    intro done best _ hinv
    exact ⟨best, rfl, by simpa using hinv⟩
  | cons c rest ih =>
    intro done best hlen hinv
    have hc : c.descriptor.length = q.length := hlen c (List.mem_cons_self _ _)
    have hrest : ∀ x ∈ rest, x.descriptor.length = q.length :=
      fun x hx => hlen x (List.mem_cons_of_mem _ hx)
    have hd := calculateEuclideanDistance_ok hc
    simp only [scanCandidates, hd]
    by_cases hcond : replacesBest maxDistance (distv q c.descriptor) best
    · rw [if_pos hcond]
      have hcle := replacesBest_le hcond
      have hstep : ScanInv maxDistance q (done ++ [c]) (some (mkMatch q c)) := by
        right
        refine ⟨done, c, [], rfl, rfl, hcle, ?_, by simp⟩
        rcases hinv with ⟨hb, hfar⟩ | ⟨pre, c0, post, hdone, hbest, hle0, hpre, hpost⟩
        · intro p hp
          exact lt_of_le_of_lt hcle (not_le.mp (hfar p hp))
        · subst hbest
          have hlt : distv q c.descriptor < distv q c0.descriptor := by
            have := ((replacesBest_some_iff _ _ _).mp hcond).1
            simpa [mkMatch] using this
          subst hdone
          intro p hp
          rcases List.mem_append.mp hp with hp | hp
          · exact lt_trans hlt (hpre p hp)
          · rcases List.mem_cons.mp hp with rfl | hp
            · exact hlt
            · exact lt_of_lt_of_le hlt (hpost p hp)
      obtain ⟨r, hr, hinv'⟩ := ih (done ++ [c]) (some (mkMatch q c)) hrest hstep
      exact ⟨r, hr, by simpa [List.append_assoc] using hinv'⟩
    · rw [if_neg hcond]
      have hstep : ScanInv maxDistance q (done ++ [c]) best := by
        rcases hinv with ⟨hb, hfar⟩ | ⟨pre, c0, post, hdone, hbest, hle0, hpre, hpost⟩
        · left
          refine ⟨hb, ?_⟩
          intro p hp
          rcases List.mem_append.mp hp with hp | hp
          · exact hfar p hp
          · rcases List.mem_cons.mp hp with rfl | hp
            · intro hple
              subst hb
              exact hcond ((replacesBest_none_iff _ _).mpr hple)
            · cases hp
        · right
          have hge : distv q c0.descriptor ≤ distv q c.descriptor := by
            by_cases hple : distv q c.descriptor ≤ maxDistance
            · subst hbest
              by_contra hlt
              exact hcond ((replacesBest_some_iff _ _ _).mpr
                ⟨by simpa [mkMatch] using not_le.mp hlt, hple⟩)
            · exact le_trans hle0 (not_le.mp hple).le
          refine ⟨pre, c0, post ++ [c], ?_, hbest, hle0, hpre, ?_⟩
          · rw [hdone]
            simp
          · intro p hp
            rcases List.mem_append.mp hp with hp | hp
            · exact hpost p hp
            · rcases List.mem_cons.mp hp with rfl | hp
              · exact hge
              · cases hp
      obtain ⟨r, hr, hinv'⟩ := ih (done ++ [c]) best hrest hstep
      exact ⟨r, hr, by simpa [List.append_assoc] using hinv'⟩

end FaceRecognitionService

/-- C4: `findBestMatch` scans every stored embedding of every identity (in
insertion order over identities, then over each identity's embeddings); the
result is `none` exactly when no stored embedding lies within `maxDistance`;
and a returned match is built from a candidate within `maxDistance` that is
strictly closer than every earlier candidate (ties keep the
first-encountered candidate) and at least as close as every later one. -/
theorem findBestMatch_spec (maxDistance : ℝ) (db : DatabaseState)
    (q : Embedding)
    (H : ∀ c ∈ FaceRecognitionService.candidates db.faces,
      c.descriptor.length = q.length) :
    ∃ r, FaceRecognitionService.findBestMatch maxDistance db q = .ok r ∧
      (r = none ↔ ∀ c ∈ FaceRecognitionService.candidates db.faces,
        maxDistance < FaceRecognitionService.distv q c.descriptor) ∧
      (∀ m, r = some m → ∃ pre c post,
        FaceRecognitionService.candidates db.faces = pre ++ c :: post ∧
        m = FaceRecognitionService.mkMatch q c ∧
        FaceRecognitionService.distv q c.descriptor ≤ maxDistance ∧
        (∀ p ∈ pre, FaceRecognitionService.distv q c.descriptor <
          FaceRecognitionService.distv q p.descriptor) ∧
        (∀ p ∈ post, FaceRecognitionService.distv q c.descriptor ≤
          FaceRecognitionService.distv q p.descriptor)) := by
  obtain ⟨r, hr, hinv⟩ := FaceRecognitionService.scanCandidates_inv maxDistance q
    (FaceRecognitionService.candidates db.faces) [] none H (Or.inl ⟨rfl, by simp⟩)
  refine ⟨r, hr, ⟨?_, ?_⟩, ?_⟩
  · intro hnone
    rcases hinv with ⟨_, hfar⟩ | ⟨pre, c, post, hdone, hbest, _⟩
    · intro c hc
      exact not_le.mp (hfar c (by simpa using hc))
    · rw [hnone] at hbest
      cases hbest
  · intro hfar
    rcases hinv with ⟨hb, _⟩ | ⟨pre, c, post, hdone, hbest, hle, _⟩
    · exact hb
    · exfalso
      have hc : c ∈ FaceRecognitionService.candidates db.faces := by
        rw [show FaceRecognitionService.candidates db.faces = pre ++ c :: post from
          by simpa using hdone]
        exact List.mem_append_right _ (List.mem_cons_self _ _)
      exact absurd hle (not_le.mpr (hfar c hc))
  · intro m hm
    rcases hinv with ⟨hb, _⟩ | ⟨pre, c, post, hdone, hbest, hle, hpre, hpost⟩
    · rw [hm] at hb
      cases hb
    · rw [hm] at hbest
      injection hbest with hbest
      exact ⟨pre, c, post, by simpa using hdone, hbest, hle, hpre, hpost⟩

/-- A one-identity, one-descriptor store used to witness the matcher
claims. -/
def matchDb : DatabaseState :=
  { faces := [("a",
      { id := "a", name := "a", descriptors := [([] : Embedding)],
        addedAt := 0, lastSeen := none })],
    totalDescriptors := 1, lastUpdated := 0 }

/-- Witness for `findBestMatch_spec` over `matchDb` and the empty query. -/
theorem findBestMatch_spec_witness :
    (∀ c ∈ FaceRecognitionService.candidates matchDb.faces,
      c.descriptor.length = ([] : Embedding).length) ∧
    (∃ r, FaceRecognitionService.findBestMatch 0.6 matchDb [] = .ok r ∧
      (r = none ↔ ∀ c ∈ FaceRecognitionService.candidates matchDb.faces,
        (0.6 : ℝ) < FaceRecognitionService.distv [] c.descriptor) ∧
      (∀ m, r = some m → ∃ pre c post,
        FaceRecognitionService.candidates matchDb.faces = pre ++ c :: post ∧
        m = FaceRecognitionService.mkMatch [] c ∧
        FaceRecognitionService.distv [] c.descriptor ≤ 0.6 ∧
        (∀ p ∈ pre, FaceRecognitionService.distv [] c.descriptor <
          FaceRecognitionService.distv [] p.descriptor) ∧
        (∀ p ∈ post, FaceRecognitionService.distv [] c.descriptor ≤
          FaceRecognitionService.distv [] p.descriptor))) :=
  ⟨by decide, findBestMatch_spec 0.6 matchDb [] (by decide)⟩

namespace FaceRecognitionService

theorem calculateEuclideanDistance_ok_nonneg {q e : Embedding} {x : ℝ}
    (h : calculateEuclideanDistance q e = .ok x) : 0 ≤ x := by
  unfold calculateEuclideanDistance at h
  split at h
  · cases h
  · injection h with h
    subst h
    exact Real.sqrt_nonneg _

/-- Every `some` running best built by the scan stores a non-negative
distance together with the confidence derived from that distance. -/
def MatchShaped : Option FaceMatch → Prop
  | none => True
  | some m => 0 ≤ m.distance ∧ m.confidence = distanceToConfidence m.distance

theorem scanCandidates_shape (maxDistance : ℝ) (q : Embedding) :
    ∀ (l : List Candidate) (best r : Option FaceMatch),
      MatchShaped best → scanCandidates maxDistance q l best = .ok r →
      MatchShaped r := by
  intro l
  induction l with
  | nil =>
    intro best r hb h
    injection h with h
    subst h
    exact hb
  | cons c rest ih =>
    intro best r hb h
    simp only [scanCandidates] at h
    cases hd : calculateEuclideanDistance q c.descriptor with
    | error e =>
      rw [hd] at h
      dsimp only [] at h
      cases h
    | ok d =>
      rw [hd] at h
      dsimp only [] at h
      by_cases hcond : replacesBest maxDistance d best
      · rw [if_pos hcond] at h
        refine ih _ r ?_ h
        exact ⟨calculateEuclideanDistance_ok_nonneg hd, rfl⟩
      · rw [if_neg hcond] at h
        exact ih _ r hb h

theorem half_le_exp_iff (d : ℝ) :
    (0.5 : ℝ) ≤ Real.exp (-d * 2) ↔ d ≤ Real.log 2 / 2 := by
  rw [show (0.5 : ℝ) = 2⁻¹ by norm_num,
    ← Real.exp_log (show (0 : ℝ) < 2⁻¹ by norm_num), Real.exp_le_exp,
    Real.log_inv]
  constructor <;> intro h <;> linarith

end FaceRecognitionService

/-- C9: under the default configuration (`MIN_CONFIDENCE = 0.5`,
`MAX_DISTANCE = 0.6`) a best match found by `findBestMatch` passes the
`recognizeFace` gate iff its distance is at most `ln 2 / 2 ≈ 0.3466`; and
`ln 2 / 2 < 0.6`, so every best match with distance in `(ln 2 / 2, 0.6]` is
classified unmatched — the confidence threshold, not `maxDistance`, is the
binding constraint by default. -/
theorem recognize_gate_spec (db : DatabaseState) (q : Embedding)
    (m : FaceRecognitionService.FaceMatch)
    (h : FaceRecognitionService.findBestMatch FaceRecognitionService.MAX_DISTANCE
      db q = .ok (some m)) :
    (FaceRecognitionService.isMatchDecision FaceRecognitionService.MIN_CONFIDENCE
        FaceRecognitionService.MAX_DISTANCE (some m) ↔
      m.distance ≤ Real.log 2 / 2) ∧
    Real.log 2 / 2 < FaceRecognitionService.MAX_DISTANCE := by
  have hshape : FaceRecognitionService.MatchShaped (some m) :=
    FaceRecognitionService.scanCandidates_shape FaceRecognitionService.MAX_DISTANCE
      q (FaceRecognitionService.candidates db.faces) none (some m) trivial h
  obtain ⟨hpos, hconf⟩ := hshape
  have hlog : Real.log 2 / 2 < FaceRecognitionService.MAX_DISTANCE := by
    have h2 := Real.log_two_lt_d9
    unfold FaceRecognitionService.MAX_DISTANCE
    linarith
  refine ⟨?_, hlog⟩
  have hkey : FaceRecognitionService.distanceToConfidence m.distance =
      Real.exp (-m.distance * 2) := by
    unfold FaceRecognitionService.distanceToConfidence
    have h1 : Real.exp (-m.distance * 2) ≤ 1 := by
      rw [← Real.exp_zero]
      exact Real.exp_le_exp.mpr (by nlinarith)
    rw [min_eq_right h1, max_eq_right (Real.exp_pos _).le]
  constructor
  · rintro ⟨hc, _⟩
    rw [hconf, hkey] at hc
    unfold FaceRecognitionService.MIN_CONFIDENCE at hc
    exact (FaceRecognitionService.half_le_exp_iff m.distance).mp hc
  · intro hd
    refine ⟨?_, le_trans hd hlog.le⟩
    rw [hconf, hkey]
    unfold FaceRecognitionService.MIN_CONFIDENCE
    exact (FaceRecognitionService.half_le_exp_iff m.distance).mpr hd

/-- The zero-distance match record the scan over `matchDb` produces. -/
noncomputable def matchZero : FaceRecognitionService.FaceMatch :=
  { personName := "a",
    confidence := FaceRecognitionService.distanceToConfidence 0,
    distance := 0,
    descriptorId := "a_0" }

/-- Witness for `recognize_gate_spec`: scanning `matchDb` with the empty
query returns the exact-match record at distance 0, which passes the gate. -/
theorem recognize_gate_spec_witness :
    (FaceRecognitionService.findBestMatch FaceRecognitionService.MAX_DISTANCE
      matchDb [] = .ok (some matchZero)) ∧
    ((FaceRecognitionService.isMatchDecision FaceRecognitionService.MIN_CONFIDENCE
        FaceRecognitionService.MAX_DISTANCE (some matchZero) ↔
      (0 : ℝ) ≤ Real.log 2 / 2) ∧
      Real.log 2 / 2 < FaceRecognitionService.MAX_DISTANCE) := by
  have hdist : FaceRecognitionService.calculateEuclideanDistance
      ([] : Embedding) [] = .ok (0 : ℝ) := by
    unfold FaceRecognitionService.calculateEuclideanDistance
    rw [if_neg (by decide)]
    simp
  have heval : FaceRecognitionService.findBestMatch
      FaceRecognitionService.MAX_DISTANCE matchDb [] =
      .ok (some matchZero) := by
    unfold FaceRecognitionService.findBestMatch
    rw [show FaceRecognitionService.candidates matchDb.faces =
      [{ faceId := "a", personName := "a", index := 0, descriptor := [] }] from rfl]
    simp only [FaceRecognitionService.scanCandidates, hdist]
    rw [if_pos ((FaceRecognitionService.replacesBest_none_iff _ _).mpr
      (by unfold FaceRecognitionService.MAX_DISTANCE; norm_num))]
    rfl
  exact ⟨heval, recognize_gate_spec matchDb [] _ heval⟩

/-! ### Store well-formedness and synchronization lemmas -/

/-- Well-formedness of a face map as the recognition service maintains it:
every face is stored under its own `id`, and the keys are pairwise distinct
(a JS `Map` cannot hold duplicate keys). -/
def WellKeyed (m : FaceMap) : Prop :=
  (∀ p ∈ m, p.2.id = p.1) ∧ (m.map (·.1)).Nodup

theorem mapGet_mem {m : FaceMap} {k : String} {v : KnownFace}
    (h : mapGet m k = some v) : (k, v) ∈ m := by
  induction m with
  | nil => cases h
  | cons p rest ih =>
    obtain ⟨k₀, v₀⟩ := p
    by_cases h₀ : k₀ = k
    · rw [mapGet, if_pos h₀] at h
      injection h with h
      subst h₀
      subst h
      exact List.mem_cons_self _ _
    · rw [mapGet, if_neg h₀] at h
      exact List.mem_cons_of_mem _ (ih h)

theorem mapSet_append_of_mapGet_none (m : FaceMap) (k : String) (v : KnownFace)
    (h : mapGet m k = none) : mapSet m k v = m ++ [(k, v)] := by
  induction m with
  | nil => rfl
  | cons p rest ih =>
    obtain ⟨k₀, v₀⟩ := p
    by_cases h₀ : k₀ = k
    · rw [mapGet, if_pos h₀] at h
      cases h
    · rw [mapGet, if_neg h₀] at h
      simp [mapSet, h₀, ih h]

theorem mapGet_append_of_none (a b : FaceMap) (x : String)
    (ha : mapGet a x = none) : mapGet (a ++ b) x = mapGet b x := by
  induction a with
  | nil => rfl
  | cons p rest ih =>
    obtain ⟨k₀, v₀⟩ := p
    by_cases h₀ : k₀ = x
    · rw [mapGet, if_pos h₀] at ha
      cases ha
    · rw [mapGet, if_neg h₀] at ha
      simp [mapGet, h₀, ih ha]

theorem mapGet_eq_none_of_not_mem_keys {m : FaceMap} {k : String}
    (h : k ∉ m.map (·.1)) : mapGet m k = none := by
  induction m with
  | nil => rfl
  | cons p rest ih =>
    obtain ⟨k₀, v₀⟩ := p
    simp only [List.map_cons, List.mem_cons, not_or] at h
    rw [mapGet, if_neg (fun he => h.1 he.symm)]
    exact ih h.2

theorem mapSet_keys_of_mapGet_some {m : FaceMap} {k : String} {old : KnownFace}
    (v : KnownFace) (h : mapGet m k = some old) :
    (mapSet m k v).map (·.1) = m.map (·.1) := by
  induction m with
  | nil => cases h
  | cons p rest ih =>
    obtain ⟨k₀, v₀⟩ := p
    by_cases h₀ : k₀ = k
    · subst h₀
      simp [mapSet]
    · rw [mapGet, if_neg h₀] at h
      simp [mapSet, h₀, ih h]

theorem mapGet_isSome_of_mem_keys {m : FaceMap} {k : String}
    (h : k ∈ m.map (·.1)) : ∃ v, mapGet m k = some v := by
  induction m with
  | nil => cases h
  | cons p rest ih =>
    obtain ⟨k₀, v₀⟩ := p
    by_cases h₀ : k₀ = k
    · exact ⟨v₀, by rw [mapGet, if_pos h₀]⟩
    · simp only [List.map_cons, List.mem_cons] at h
      rcases h with h | h
      · exact absurd h.symm h₀
      · obtain ⟨v, hv⟩ := ih h
        exact ⟨v, by rw [mapGet, if_neg h₀, hv]⟩

theorem mem_mapSet {m : FaceMap} {k : String} {v : KnownFace} {p : String × KnownFace}
    (hp : p ∈ mapSet m k v) : p = (k, v) ∨ p ∈ m := by
  induction m with
  | nil =>
    simp only [mapSet] at hp
    rcases List.mem_singleton.mp hp with rfl
    exact Or.inl rfl
  | cons q rest ih =>
    obtain ⟨k₀, v₀⟩ := q
    by_cases h₀ : k₀ = k
    · simp only [mapSet, if_pos h₀] at hp
      rcases List.mem_cons.mp hp with rfl | hp
      · exact Or.inl rfl
      · exact Or.inr (List.mem_cons_of_mem _ hp)
    · simp only [mapSet, if_neg h₀] at hp
      rcases List.mem_cons.mp hp with rfl | hp
      · exact Or.inr (List.mem_cons_self _ _)
      · rcases ih hp with h | h
        · exact Or.inl h
        · exact Or.inr (List.mem_cons_of_mem _ h)

theorem wellKeyed_mapSet {m : FaceMap} {k : String} {v : KnownFace}
    (h : WellKeyed m) (hv : v.id = k) : WellKeyed (mapSet m k v) := by
  constructor
  · intro p hp
    rcases mem_mapSet hp with rfl | hp
    · exact hv
    · exact h.1 p hp
  · cases hget : mapGet m k with
    | some old =>
      rw [mapSet_keys_of_mapGet_some v hget]
      exact h.2
    | none =>
      rw [mapSet_append_of_mapGet_none m k v hget, List.map_append]
      simp only [List.map_cons, List.map_nil]
      rw [List.nodup_append]
      refine ⟨h.2, List.nodup_singleton _, ?_⟩
      intro x hx hk
      rcases List.mem_singleton.mp hk with rfl
      obtain ⟨w, hw⟩ := mapGet_isSome_of_mem_keys hx
      rw [hget] at hw
      cases hw

theorem foldl_mapSet_values (m : FaceMap) :
    ∀ a : FaceMap, (∀ p ∈ m, p.2.id = p.1) →
      (∀ p ∈ m, mapGet a p.1 = none) →
      (m.map (·.1)).Nodup →
      (m.map (·.2)).foldl (fun acc f => mapSet acc f.id f) a = a ++ m := by
  induction m with
  | nil =>
    intro a _ _ _
    simp
  | cons p rest ih =>
    intro a hid hfresh hnodup
    obtain ⟨k, v⟩ := p
    simp only [List.map_cons, List.foldl_cons]
    have hvid : v.id = k := hid (k, v) (List.mem_cons_self _ _)
    rw [hvid, mapSet_append_of_mapGet_none a k v (hfresh (k, v) (List.mem_cons_self _ _))]
    rw [List.map_cons] at hnodup
    dsimp only at hnodup
    have hkeys := List.nodup_cons.mp hnodup
    rw [ih (a ++ [(k, v)]) (fun q hq => hid q (List.mem_cons_of_mem _ hq))
      ?_ hkeys.2]
    · simp
    · intro q hq
      rw [mapGet_append_of_none a _ q.1 (hfresh q (List.mem_cons_of_mem _ hq))]
      have hne : ¬ (k = q.1) := by
        intro he
        subst he
        exact hkeys.1 (List.mem_map_of_mem (fun x => x.1) hq)
      rw [mapGet, if_neg hne]
      rfl

theorem syncFrom_of_wellKeyed (st : FaceDatabase.State)
    (h : WellKeyed st.service.faces) :
    FaceDatabase.syncFromRecognitionService st =
      { st with db := { faces := st.service.faces,
                        totalDescriptors := st.service.totalDescriptors,
                        lastUpdated := st.service.lastUpdated } } := by
  unfold FaceDatabase.syncFromRecognitionService FaceRecognitionService.getKnownFaces
    FaceRecognitionService.getDatabaseStats
  dsimp only
  rw [foldl_mapSet_values st.service.faces [] h.1 (fun p _ => rfl) h.2]
  simp

theorem wellKeyed_addKnownFace (db : DatabaseState) (name : String)
    (d : Option Embedding) (now : Nat) (h : WellKeyed db.faces) :
    WellKeyed (FaceRecognitionService.addKnownFace db name d now).2.faces := by
  cases d with
  | none => exact h
  | some emb =>
    cases hget : mapGet db.faces (FaceRecognitionService.generateFaceId name) with
    | some existing =>
      have hid : existing.id = FaceRecognitionService.generateFaceId name :=
        h.1 _ (mapGet_mem hget)
      simp only [FaceRecognitionService.addKnownFace, hget]
      exact wellKeyed_mapSet h hid
    | none =>
      simp only [FaceRecognitionService.addKnownFace, hget]
      exact wellKeyed_mapSet h rfl

/-- The number of descriptors the store holds for `faceId`
(`faces.get(faceId)?.descriptors.length || 0`). -/
def faceCount (db : DatabaseState) (faceId : String) : Nat :=
  ((mapGet db.faces faceId).map (fun f => f.descriptors.length)).getD 0

theorem addKnownFace_some_count (db : DatabaseState) (name : String)
    (d : Embedding) (now : Nat) :
    (FaceRecognitionService.addKnownFace db name (some d) now).1 = true ∧
    ∃ f, mapGet (FaceRecognitionService.addKnownFace db name (some d) now).2.faces
        (FaceRecognitionService.generateFaceId name) = some f ∧
      f.descriptors.length =
        faceCount db (FaceRecognitionService.generateFaceId name) + 1 := by
  cases hget : mapGet db.faces (FaceRecognitionService.generateFaceId name) with
  | some existing =>
    simp only [FaceRecognitionService.addKnownFace, hget]
    refine ⟨trivial, _, mapGet_mapSet_self _ _ _, ?_⟩
    simp [faceCount, hget]
  | none =>
    simp only [FaceRecognitionService.addKnownFace, hget]
    refine ⟨trivial, _, mapGet_mapSet_self _ _ _, ?_⟩
    simp [faceCount, hget]

theorem addKnownFace_other_count (db : DatabaseState) (name : String)
    (d : Option Embedding) (now : Nat) (k : String)
    (hk : k ≠ FaceRecognitionService.generateFaceId name) :
    mapGet (FaceRecognitionService.addKnownFace db name d now).2.faces k =
      mapGet db.faces k := by
  cases d with
  | none => rfl
  | some emb =>
    cases hget : mapGet db.faces (FaceRecognitionService.generateFaceId name) with
    | some existing =>
      simp only [FaceRecognitionService.addKnownFace, hget]
      exact mapGet_mapSet_ne _ _ _ _ hk
    | none =>
      simp only [FaceRecognitionService.addKnownFace, hget]
      exact mapGet_mapSet_ne _ _ _ _ hk

/-- The system state after one training-loop iteration: the sample added
through the recognition service, and the mirror resynchronized (assuming a
well-keyed store, the mirror is then an exact copy). -/
def afterSample (st : FaceDatabase.State) (name : String) (s : Option Embedding)
    (now : Nat) : FaceDatabase.State :=
  { service := (FaceRecognitionService.addKnownFace st.service name s now).2,
    db := { faces := (FaceRecognitionService.addKnownFace st.service name s now).2.faces,
            totalDescriptors :=
              (FaceRecognitionService.addKnownFace st.service name s now).2.totalDescriptors,
            lastUpdated :=
              (FaceRecognitionService.addKnownFace st.service name s now).2.lastUpdated },
    storage := st.storage }

theorem afterSample_service (st : FaceDatabase.State) (name : String)
    (s : Option Embedding) (now : Nat) :
    (afterSample st name s now).service =
      (FaceRecognitionService.addKnownFace st.service name s now).2 := rfl

/-- One unfolding of the training loop, with the resync already resolved to
a mirror copy of the (well-keyed) post-add authoritative store. -/
theorem trainLoop_cons (name faceId : String) (now : Nat) (s : Option Embedding)
    (rest : List (Option Embedding)) (st : FaceDatabase.State) (acc : Nat)
    (hwk : WellKeyed (FaceRecognitionService.addKnownFace st.service name s now).2.faces) :
    FaceDatabase.trainLoop name faceId now (s :: rest) st acc =
      (match mapGet (FaceRecognitionService.addKnownFace st.service name s now).2.faces
          faceId with
       | some f =>
         if FaceDatabase.MAX_DESCRIPTORS_PER_FACE ≤ f.descriptors.length then
           ((if (FaceRecognitionService.addKnownFace st.service name s now).1 then
             acc + 1 else acc), afterSample st name s now)
         else FaceDatabase.trainLoop name faceId now rest (afterSample st name s now)
           (if (FaceRecognitionService.addKnownFace st.service name s now).1 then
             acc + 1 else acc)
       | none => FaceDatabase.trainLoop name faceId now rest (afterSample st name s now)
           (if (FaceRecognitionService.addKnownFace st.service name s now).1 then
             acc + 1 else acc)) := by
  simp only [FaceDatabase.trainLoop]
  rw [syncFrom_of_wellKeyed { st with
    service := (FaceRecognitionService.addKnownFace st.service name s now).2 } hwk]
  rfl

theorem faceCount_afterSample_some (st : FaceDatabase.State) (name : String)
    (d : Embedding) (now : Nat) :
    faceCount (afterSample st name (some d) now).service
        (FaceRecognitionService.generateFaceId name) =
      faceCount st.service (FaceRecognitionService.generateFaceId name) + 1 := by
  obtain ⟨-, f', hf', hlen⟩ := addKnownFace_some_count st.service name d now
  rw [afterSample_service]
  simp [faceCount, hf', hlen]

theorem faceCount_afterSample_none (st : FaceDatabase.State) (name : String)
    (now : Nat) :
    faceCount (afterSample st name none now).service
        (FaceRecognitionService.generateFaceId name) =
      faceCount st.service (FaceRecognitionService.generateFaceId name) := rfl

theorem trainLoop_cap (name : String) (now : Nat) :
    ∀ (samples : List (Option Embedding)) (st : FaceDatabase.State) (acc : Nat),
      WellKeyed st.service.faces →
      faceCount st.service (FaceRecognitionService.generateFaceId name) <
        FaceDatabase.MAX_DESCRIPTORS_PER_FACE →
      WellKeyed (FaceDatabase.trainLoop name
        (FaceRecognitionService.generateFaceId name) now samples st acc).2.service.faces ∧
      faceCount (FaceDatabase.trainLoop name
          (FaceRecognitionService.generateFaceId name) now samples st acc).2.service
        (FaceRecognitionService.generateFaceId name) ≤
        FaceDatabase.MAX_DESCRIPTORS_PER_FACE := by
  intro samples
  induction samples with
  | nil =>
    intro st acc hwk hlt
    exact ⟨hwk, hlt.le⟩
  | cons s rest ih =>
    intro st acc hwk hlt
    have hwk2 := wellKeyed_addKnownFace st.service name s now hwk
    have hwk2' : WellKeyed (afterSample st name s now).service.faces := hwk2
    rw [trainLoop_cons name _ now s rest st acc hwk2]
    cases s with
    | none =>
      have hcnt := faceCount_afterSample_none st name now
      cases hget : mapGet
          (FaceRecognitionService.addKnownFace st.service name none now).2.faces
          (FaceRecognitionService.generateFaceId name) with
      | some f =>
        have hflen : faceCount (afterSample st name none now).service
            (FaceRecognitionService.generateFaceId name) = f.descriptors.length := by
          rw [afterSample_service]
          simp [faceCount, hget]
        dsimp only
        rw [if_neg (show ¬ (FaceDatabase.MAX_DESCRIPTORS_PER_FACE ≤
          f.descriptors.length) from by omega)]
        exact ih _ _ hwk2' (by omega)
      | none =>
        exact ih _ _ hwk2' (by omega)
    | some d =>
      have hcnt := faceCount_afterSample_some st name d now
      obtain ⟨hr1, f', hf', hlen⟩ := addKnownFace_some_count st.service name d now
      have hflen : faceCount (afterSample st name (some d) now).service
          (FaceRecognitionService.generateFaceId name) = f'.descriptors.length := by
        rw [afterSample_service]
        simp [faceCount, hf']
      rw [hf']
      dsimp only
      by_cases hbreak : FaceDatabase.MAX_DESCRIPTORS_PER_FACE ≤ f'.descriptors.length
      · rw [if_pos hbreak]
        refine ⟨hwk2, ?_⟩
        show faceCount (afterSample st name (some d) now).service
            (FaceRecognitionService.generateFaceId name) ≤
          FaceDatabase.MAX_DESCRIPTORS_PER_FACE
        omega
      · rw [if_neg hbreak]
        exact ih _ _ hwk2' (by omega)

theorem trainLoop_exact (name : String) (now : Nat) :
    ∀ (samples : List (Option Embedding)) (st : FaceDatabase.State) (acc : Nat),
      WellKeyed st.service.faces →
      (∀ s ∈ samples, s.isSome = true) →
      faceCount st.service (FaceRecognitionService.generateFaceId name) <
        FaceDatabase.MAX_DESCRIPTORS_PER_FACE →
      (if faceCount st.service (FaceRecognitionService.generateFaceId name) +
          samples.length ≤ FaceDatabase.MAX_DESCRIPTORS_PER_FACE then
        (FaceDatabase.trainLoop name (FaceRecognitionService.generateFaceId name)
            now samples st acc).1 = acc + samples.length ∧
        faceCount (FaceDatabase.trainLoop name
            (FaceRecognitionService.generateFaceId name) now samples st acc).2.service
          (FaceRecognitionService.generateFaceId name) =
          faceCount st.service (FaceRecognitionService.generateFaceId name) +
            samples.length
      else
        (FaceDatabase.trainLoop name (FaceRecognitionService.generateFaceId name)
            now samples st acc).1 = acc +
          (FaceDatabase.MAX_DESCRIPTORS_PER_FACE -
            faceCount st.service (FaceRecognitionService.generateFaceId name)) ∧
        faceCount (FaceDatabase.trainLoop name
            (FaceRecognitionService.generateFaceId name) now samples st acc).2.service
          (FaceRecognitionService.generateFaceId name) =
          FaceDatabase.MAX_DESCRIPTORS_PER_FACE) := by
  intro samples
  induction samples with
  | nil =>
    intro st acc hwk _ hlt
    rw [if_pos (by simp only [List.length_nil, Nat.add_zero]; omega)]
    exact ⟨rfl, rfl⟩
  | cons s rest ih =>
    intro st acc hwk hsome hlt
    obtain ⟨d, rfl⟩ := Option.isSome_iff_exists.mp
      (hsome s (List.mem_cons_self _ _))
    have hwk2 := wellKeyed_addKnownFace st.service name (some d) now hwk
    have hwk2' : WellKeyed (afterSample st name (some d) now).service.faces := hwk2
    rw [trainLoop_cons name _ now (some d) rest st acc hwk2]
    have hcnt := faceCount_afterSample_some st name d now
    obtain ⟨hr1, f', hf', hlen⟩ := addKnownFace_some_count st.service name d now
    have hflen : faceCount (afterSample st name (some d) now).service
        (FaceRecognitionService.generateFaceId name) = f'.descriptors.length := by
      rw [afterSample_service]
      simp [faceCount, hf']
    rw [hf']
    dsimp only
    rw [if_pos hr1]
    by_cases hbreak : FaceDatabase.MAX_DESCRIPTORS_PER_FACE ≤ f'.descriptors.length
    · rw [if_pos hbreak]
      split
      · refine ⟨?_, ?_⟩
        · show acc + 1 = _
          simp only [List.length_cons] at *
          omega
        · show faceCount (afterSample st name (some d) now).service
              (FaceRecognitionService.generateFaceId name) = _
          simp only [List.length_cons] at *
          omega
      · refine ⟨?_, ?_⟩
        · show acc + 1 = _
          simp only [List.length_cons] at *
          omega
        · show faceCount (afterSample st name (some d) now).service
              (FaceRecognitionService.generateFaceId name) = _
          omega
    · rw [if_neg hbreak]
      have hih := ih (afterSample st name (some d) now) (acc + 1) hwk2'
        (fun x hx => hsome x (List.mem_cons_of_mem _ hx)) (by omega)
      split at hih <;> obtain ⟨h1, h2⟩ := hih <;> split <;>
        refine ⟨?_, ?_⟩ <;> simp only [List.length_cons] at * <;> omega

theorem saveToStorage_db (st : FaceDatabase.State) (now : Nat) :
    (FaceDatabase.saveToStorage st now).db =
      (FaceDatabase.syncFromRecognitionService st).db := rfl

theorem saveToStorage_service (st : FaceDatabase.State) (now : Nat) :
    (FaceDatabase.saveToStorage st now).service = st.service := rfl

/-- The outcome fields of a (non-trivial) `trainFace` call, expressed through
the training loop: `samplesAdded` is the loop's success count, `totalSamples`
re-reads the trained identity's count from the saved mirror (which equals
the authoritative store when it is well-keyed), and the final authoritative
store is the loop's. -/
theorem trainFace_parts (st : FaceDatabase.State) (name : String)
    (samples : List (Option Embedding)) (now : Nat)
    (hne : ¬ (samples.length = 0))
    (hwkr : WellKeyed (FaceDatabase.trainLoop name
      (FaceRecognitionService.generateFaceId name) now samples st 0).2.service.faces) :
    (FaceDatabase.trainFace st name samples now).1.samplesAdded =
      (FaceDatabase.trainLoop name (FaceRecognitionService.generateFaceId name)
        now samples st 0).1 ∧
    (FaceDatabase.trainFace st name samples now).1.totalSamples =
      faceCount (FaceDatabase.trainLoop name
          (FaceRecognitionService.generateFaceId name) now samples st 0).2.service
        (FaceRecognitionService.generateFaceId name) ∧
    (FaceDatabase.trainFace st name samples now).2.service =
      (FaceDatabase.trainLoop name (FaceRecognitionService.generateFaceId name)
        now samples st 0).2.service := by
  simp only [FaceDatabase.trainFace, if_neg hne]
  rw [show FaceDatabase.generateFaceId name =
    FaceRecognitionService.generateFaceId name from rfl]
  refine ⟨rfl, ?_, rfl⟩
  have hface : (FaceDatabase.saveToStorage (FaceDatabase.syncFromRecognitionService
      (FaceDatabase.trainLoop name (FaceRecognitionService.generateFaceId name)
        now samples st 0).2) now).db.faces =
      (FaceDatabase.trainLoop name (FaceRecognitionService.generateFaceId name)
        now samples st 0).2.service.faces := by
    rw [saveToStorage_db, syncFrom_of_wellKeyed (FaceDatabase.syncFromRecognitionService
      (FaceDatabase.trainLoop name (FaceRecognitionService.generateFaceId name)
        now samples st 0).2) hwkr]
    rfl
  rw [hface]
  rfl

/-- C2 (amended): after each attempt `trainFace` re-reads the identity's
stored count and stops as soon as it has reached `MAX_DESCRIPTORS_PER_FACE`
(10); hence when training starts below the cap the stored count never
exceeds 10, and training a fresh identity with (at least) 10 successful
samples — e.g. 15 — leaves exactly 10 stored embeddings and reports
`samplesAdded = 10` and `totalSamples = 10`.  (An identity already at or
above the cap still receives one more embedding before the stop check — see
the counterexample.) -/
theorem trainFace_cap_spec (st : FaceDatabase.State) (name : String)
    (samples : List (Option Embedding)) (now : Nat)
    (hwk : WellKeyed st.service.faces)
    (hlt : faceCount st.service (FaceRecognitionService.generateFaceId name) <
      FaceDatabase.MAX_DESCRIPTORS_PER_FACE) :
    faceCount (FaceDatabase.trainFace st name samples now).2.service
        (FaceRecognitionService.generateFaceId name) ≤
      FaceDatabase.MAX_DESCRIPTORS_PER_FACE ∧
    (mapGet st.service.faces (FaceRecognitionService.generateFaceId name) = none →
      (∀ s ∈ samples, s.isSome = true) →
      FaceDatabase.MAX_DESCRIPTORS_PER_FACE ≤ samples.length →
      (FaceDatabase.trainFace st name samples now).1.samplesAdded =
        FaceDatabase.MAX_DESCRIPTORS_PER_FACE ∧
      (FaceDatabase.trainFace st name samples now).1.totalSamples =
        FaceDatabase.MAX_DESCRIPTORS_PER_FACE ∧
      faceCount (FaceDatabase.trainFace st name samples now).2.service
        (FaceRecognitionService.generateFaceId name) =
        FaceDatabase.MAX_DESCRIPTORS_PER_FACE) := by
  by_cases hne : samples.length = 0
  · have hsamples : samples = [] := List.length_eq_zero.mp hne
    subst hsamples
    have heq : FaceDatabase.trainFace st name [] now =
        ({ success := false, samplesAdded := 0, totalSamples := 0,
           message := "No face detections provided for training" }, st) := rfl
    rw [heq]
    refine ⟨hlt.le, ?_⟩
    intro _ _ hlen
    simp only [List.length_nil] at hlen
    exact absurd hlen (by decide)
  · obtain ⟨hwkr, hcap⟩ := trainLoop_cap name now samples st 0 hwk hlt
    obtain ⟨hadded, htotal, hservice⟩ := trainFace_parts st name samples now hne hwkr
    refine ⟨?_, ?_⟩
    · rw [hservice]
      exact hcap
    · intro hnone hsome hlen
      have hc0 : faceCount st.service (FaceRecognitionService.generateFaceId name) = 0 := by
        simp [faceCount, hnone]
      have hexact := trainLoop_exact name now samples st 0 hwk hsome hlt
      rw [hc0] at hexact
      rw [hservice, hadded, htotal]
      split at hexact <;> obtain ⟨h1, h2⟩ := hexact <;>
        refine ⟨by omega, by omega, by omega⟩

/-- A state whose identity `"a"` already holds exactly 10 stored
embeddings (reachable, e.g., by training 10 successful samples). -/
def cappedState : FaceDatabase.State :=
  { service :=
      { faces := [("a",
          { id := "a", name := "a",
            descriptors := List.replicate 10 ([] : Embedding),
            addedAt := 0, lastSeen := some 0 })],
        totalDescriptors := 10, lastUpdated := 0 },
    db :=
      { faces := [("a",
          { id := "a", name := "a",
            descriptors := List.replicate 10 ([] : Embedding),
            addedAt := 0, lastSeen := some 0 })],
        totalDescriptors := 10, lastUpdated := 0 },
    storage := none }

/-- C2 counterexample: training an identity that already holds exactly 10
stored embeddings with one further successful sample stores an 11th
embedding — the cap check runs only after the attempt, so the stored set is
not capped at 10 for every identity and input sequence. -/
theorem trainFace_cap_counterexample :
    ((mapGet (FaceDatabase.trainFace cappedState "a" [some []] 1).2.service.faces
        "a").map (fun f => f.descriptors.length)) = some 11 ∧
    ¬ (11 ≤ FaceDatabase.MAX_DESCRIPTORS_PER_FACE) := by
  exact ⟨rfl, by decide⟩

/-- Witness for `trainFace_cap_spec`: a fresh identity trained with 15
successful samples on the empty store. -/
theorem trainFace_cap_spec_witness :
    WellKeyed emptyState.service.faces ∧
    faceCount emptyState.service (FaceRecognitionService.generateFaceId "a") <
      FaceDatabase.MAX_DESCRIPTORS_PER_FACE ∧
    (mapGet emptyState.service.faces (FaceRecognitionService.generateFaceId "a") =
      none) ∧
    (∀ s ∈ List.replicate 15 (some ([] : Embedding)), s.isSome = true) ∧
    FaceDatabase.MAX_DESCRIPTORS_PER_FACE ≤
      (List.replicate 15 (some ([] : Embedding))).length ∧
    ((FaceDatabase.trainFace emptyState "a"
        (List.replicate 15 (some ([] : Embedding))) 1).1.samplesAdded =
      FaceDatabase.MAX_DESCRIPTORS_PER_FACE ∧
    (FaceDatabase.trainFace emptyState "a"
        (List.replicate 15 (some ([] : Embedding))) 1).1.totalSamples =
      FaceDatabase.MAX_DESCRIPTORS_PER_FACE ∧
    faceCount (FaceDatabase.trainFace emptyState "a"
        (List.replicate 15 (some ([] : Embedding))) 1).2.service
      (FaceRecognitionService.generateFaceId "a") =
      FaceDatabase.MAX_DESCRIPTORS_PER_FACE) := by
  refine ⟨⟨by decide, by decide⟩, by decide, rfl, by decide, by decide, ?_⟩
  exact (trainFace_cap_spec emptyState "a"
      (List.replicate 15 (some ([] : Embedding))) 1 ⟨by decide, by decide⟩
      (by decide)).2 rfl (by decide) (by decide)

theorem exportDatabase_of_wellKeyed (st : FaceDatabase.State) (now : Nat)
    (h : WellKeyed st.service.faces) :
    (FaceDatabase.exportDatabase st now).1.faces =
      some (st.service.faces.map (fun p =>
        ({ id := p.1, name := p.2.name, descriptors := p.2.descriptors,
           addedAt := p.2.addedAt, lastSeen := p.2.lastSeen } :
          FaceDatabase.PersistedFace))) := by
  unfold FaceDatabase.exportDatabase
  rw [syncFrom_of_wellKeyed st h]

theorem importDatabase_some (st : FaceDatabase.State)
    (doc : FaceDatabase.PersistedDoc) (l : List FaceDatabase.PersistedFace)
    (now : Nat) (hdoc : doc.faces = some l) :
    (FaceDatabase.importDatabase st doc now).1.success = true ∧
    (FaceDatabase.importDatabase st doc now).1.descriptorsImported =
      (l.map (fun fd => fd.descriptors.length)).sum ∧
    (FaceDatabase.importDatabase st doc now).2.service =
      { faces := [], totalDescriptors := 0, lastUpdated := now } := by
  unfold FaceDatabase.importDatabase
  rw [hdoc]
  dsimp only
  refine ⟨rfl, ?_, rfl⟩
  rw [List.map_map]
  rfl

theorem getStatistics_totalDescriptors (st : FaceDatabase.State) :
    (FaceDatabase.getStatistics st).1.totalDescriptors =
      st.service.totalDescriptors := rfl

theorem getStatistics_totalFaces_of_empty (st : FaceDatabase.State)
    (h : st.service.faces = []) :
    (FaceDatabase.getStatistics st).1.totalFaces = 0 := by
  unfold FaceDatabase.getStatistics FaceDatabase.syncFromRecognitionService
    FaceRecognitionService.getKnownFaces FaceRecognitionService.getDatabaseStats
  rw [h]
  rfl

/-- C1 (corrected): `export()` then `clear()` then `import(exported)` reports
a successful import whose `descriptorsImported` equals the original store's
`totalEmbeddings`, but the store itself is not restored: the write-through
sync only clears the authoritative store and the save-time resync then
empties the wrapper's mirror too, so the subsequently observed
`stats()` surface reports zero identities and zero embeddings — different
from the original non-empty counts. -/
theorem export_clear_import_loses_store (st : FaceDatabase.State)
    (now1 now2 now3 : Nat) (hwk : WellKeyed st.service.faces)
    (hinv : CounterInvariant st.service)
    (hne : st.service.totalDescriptors ≠ 0) :
    (FaceDatabase.importDatabase
        (FaceDatabase.clearDatabase (FaceDatabase.exportDatabase st now1).2 now2)
        (FaceDatabase.exportDatabase st now1).1 now3).1.success = true ∧
    ((FaceDatabase.importDatabase
        (FaceDatabase.clearDatabase (FaceDatabase.exportDatabase st now1).2 now2)
        (FaceDatabase.exportDatabase st now1).1 now3).1.descriptorsImported : Int) =
      st.service.totalDescriptors ∧
    (FaceDatabase.getStatistics (FaceDatabase.importDatabase
        (FaceDatabase.clearDatabase (FaceDatabase.exportDatabase st now1).2 now2)
        (FaceDatabase.exportDatabase st now1).1 now3).2).1.totalDescriptors = 0 ∧
    (FaceDatabase.getStatistics (FaceDatabase.importDatabase
        (FaceDatabase.clearDatabase (FaceDatabase.exportDatabase st now1).2 now2)
        (FaceDatabase.exportDatabase st now1).1 now3).2).1.totalFaces = 0 ∧
    (FaceDatabase.getStatistics st).1.totalDescriptors =
      st.service.totalDescriptors ∧
    (0 : Int) ≠ st.service.totalDescriptors := by
  have hdoc := exportDatabase_of_wellKeyed st now1 hwk
  obtain ⟨hsucc, himp, hserv⟩ := importDatabase_some
    (FaceDatabase.clearDatabase (FaceDatabase.exportDatabase st now1).2 now2)
    (FaceDatabase.exportDatabase st now1).1 _ now3 hdoc
  refine ⟨hsucc, ?_, ?_, ?_, rfl, Ne.symm hne⟩
  · rw [himp, List.map_map, Nat.cast_list_sum, List.map_map, hinv]
    rfl
  · rw [getStatistics_totalDescriptors, hserv]
  · apply getStatistics_totalFaces_of_empty
    rw [hserv]

/-- A reachable one-identity, one-embedding system state: the result of one
successful `addTrainingSample` on a fresh system. -/
def roundTripState : FaceDatabase.State :=
  (FaceDatabase.addTrainingSample emptyState "a" (some []) 1).2

/-- C1 counterexample: on a store holding one identity with one embedding,
`export()` → `clear()` → `import(exported)` reports success, yet the
subsequently observed statistics show zero embeddings and zero identities
instead of the original totals. -/
theorem export_clear_import_counterexample :
    (FaceDatabase.getStatistics roundTripState).1.totalDescriptors = 1 ∧
    (FaceDatabase.importDatabase
        (FaceDatabase.clearDatabase
          (FaceDatabase.exportDatabase roundTripState 2).2 3)
        (FaceDatabase.exportDatabase roundTripState 2).1 4).1.success = true ∧
    (FaceDatabase.getStatistics (FaceDatabase.importDatabase
        (FaceDatabase.clearDatabase
          (FaceDatabase.exportDatabase roundTripState 2).2 3)
        (FaceDatabase.exportDatabase roundTripState 2).1 4).2).1.totalDescriptors
      = 0 ∧
    (FaceDatabase.getStatistics (FaceDatabase.importDatabase
        (FaceDatabase.clearDatabase
          (FaceDatabase.exportDatabase roundTripState 2).2 3)
        (FaceDatabase.exportDatabase roundTripState 2).1 4).2).1.totalFaces = 0 :=
  ⟨rfl, rfl, rfl, rfl⟩

/-- Witness for `export_clear_import_loses_store` on `roundTripState`. -/
theorem export_clear_import_loses_store_witness :
    WellKeyed roundTripState.service.faces ∧
    CounterInvariant roundTripState.service ∧
    roundTripState.service.totalDescriptors ≠ 0 ∧
    (((FaceDatabase.importDatabase
        (FaceDatabase.clearDatabase
          (FaceDatabase.exportDatabase roundTripState 2).2 3)
        (FaceDatabase.exportDatabase roundTripState 2).1 4).1.descriptorsImported :
      Int) = roundTripState.service.totalDescriptors ∧
    (FaceDatabase.getStatistics (FaceDatabase.importDatabase
        (FaceDatabase.clearDatabase
          (FaceDatabase.exportDatabase roundTripState 2).2 3)
        (FaceDatabase.exportDatabase roundTripState 2).1 4).2).1.totalDescriptors
      = 0) := by
  refine ⟨⟨by decide, by decide⟩, rfl, by decide, ?_, ?_⟩
  · exact (export_clear_import_loses_store roundTripState 2 3 4
      ⟨by decide, by decide⟩ rfl (by decide)).2.1
  · exact (export_clear_import_loses_store roundTripState 2 3 4
      ⟨by decide, by decide⟩ rfl (by decide)).2.2.1

end FacialRecognitionWeb
